import Mathlib

/-!
Verification of the FanoSTT browser streaming client.

The development shallowly embeds the audio codec utilities
(src/utils/audio.ts), the recorder hook's duplicated codec helpers
(src/hooks/useAudioRecorder.ts), the WebSocket session client
(src/hooks/useWebSocket.ts) and the page-level streaming orchestrator
(src/app/page.tsx).

Modelling conventions:
* JS numbers are modelled as rationals (ℚ); typed-array elements that the
  code stores into an `Int16Array` are modelled as integers with the exact
  ECMAScript ToInt16 conversion (truncate toward zero, wrap modulo 2^16).
* Byte strings ("binary strings" fed to `btoa`, and the strings `atob`
  returns) are modelled as lists of character codes (ℕ).
* React `useState` cells become fields of an explicit state record; an
  event handler becomes a function from the state (and the event payload)
  to the new state, paired with the list of protocol frames it sends, in
  send order.  `setTimeout`-staggered sends with strictly increasing
  delays are modelled as ordered emission.
-/

namespace FanoSTT

/-! ### PCM codec (src/utils/audio.ts) -/

/-- JS `Math.max(-1, Math.min(1, x))` from `float32ToInt16`. -/
def jsClamp (x : ℚ) : ℚ := max (-1) (min 1 x)

/-- JS `Math.floor` on a rational, via the executable `Rat.floor`
(equal to the mathematical `Int.floor`, see `ratFloor_eq`). -/
def ratFloor (q : ℚ) : ℤ := q.floor

/-- JS `Math.ceil` on a rational, executable (equal to the mathematical
`Int.ceil`, see `ratCeil_eq`). -/
def ratCeil (q : ℚ) : ℤ := -((-q).floor)

/-- Truncation toward zero, the integer-extraction step of ECMAScript
ToInt16 (applied on assignment into an `Int16Array`). -/
def ratTrunc (q : ℚ) : ℤ := if q < 0 then ratCeil q else ratFloor q

/-- ECMAScript ToInt16: truncate toward zero, reduce modulo 2^16 and
reinterpret in the signed range [-32768, 32767]. -/
def toInt16 (q : ℚ) : ℤ := (ratTrunc q + 32768) % 65536 - 32768

/-- Embeds `float32ToInt16` (src/utils/audio.ts lines 101-108): clamp each sample
to [-1, 1], scale negatives by 0x8000 = 32768 and non-negatives by
0x7fff = 32767, and store into an `Int16Array`. -/
def float32ToInt16 (buffer : List ℚ) : List ℤ :=
  buffer.map (fun x =>
    let sample := jsClamp x
    toInt16 (if sample < 0 then sample * 32768 else sample * 32767))

/-- JS `Math.round` (round half toward positive infinity). -/
def jsRound (q : ℚ) : ℤ := ratFloor (q + 1/2)

/-- JS indexing `buffer[i] || 0` with a possibly out-of-range (or negative)
index: out-of-range reads give `undefined`, coerced to 0. -/
def nthD (buffer : List ℚ) (i : ℤ) : ℚ :=
  if 0 ≤ i then buffer.getD i.toNat 0 else 0

/-- Embeds `resampleBuffer` (src/utils/audio.ts lines 125-155): linear
interpolation; the ceiling interpolation index is clamped to the last
sample via `Math.min(Math.ceil(index), buffer.length - 1)`. -/
def resampleBuffer (buffer : List ℚ) (fromSampleRate toSampleRate : ℚ) : List ℚ :=
  if fromSampleRate = toSampleRate then buffer
  else
    let rr := fromSampleRate / toSampleRate
    let newLength := (jsRound ((buffer.length : ℚ) / rr)).toNat
    (List.range newLength).map (fun (i : ℕ) =>
      let index : ℚ := (i : ℚ) * rr
      let indexFloor : ℤ := ratFloor index
      let indexCeil : ℤ := min (ratCeil index) ((buffer.length : ℤ) - 1)
      if indexFloor = indexCeil then nthD buffer indexFloor
      else
        let fraction : ℚ := index - (indexFloor : ℚ)
        nthD buffer indexFloor * (1 - fraction) + nthD buffer indexCeil * fraction)

/-- The duplicated `resampleBuffer` inside the recorder hook
(src/hooks/useAudioRecorder.ts lines 99-131): identical except that the
ceiling index `Math.ceil(index)` is NOT clamped to `buffer.length - 1`,
so an out-of-range read yields `undefined || 0 = 0`. -/
def resampleBufferRecorder (buffer : List ℚ) (fromSampleRate toSampleRate : ℚ) : List ℚ :=
  if fromSampleRate = toSampleRate then buffer
  else
    let rr := fromSampleRate / toSampleRate
    let newLength := (jsRound ((buffer.length : ℚ) / rr)).toNat
    (List.range newLength).map (fun (i : ℕ) =>
      let index : ℚ := (i : ℚ) * rr
      let indexFloor : ℤ := ratFloor index
      let indexCeil : ℤ := ratCeil index
      if indexFloor = indexCeil then nthD buffer indexFloor
      else
        let fraction : ℚ := index - (indexFloor : ℚ)
        nthD buffer indexFloor * (1 - fraction) + nthD buffer indexCeil * fraction)

theorem ratFloor_eq (q : ℚ) : ratFloor q = ⌊q⌋ :=
  (Rat.floor_def' q).trans Rat.floor_def.symm

theorem ratCeil_eq (q : ℚ) : ratCeil q = ⌈q⌉ := by
  rw [ratCeil, (Rat.floor_def' (-q)).trans (@Rat.floor_def (-q)).symm,
    Int.floor_neg, neg_neg]

theorem jsClamp_le_one (x : ℚ) : jsClamp x ≤ 1 :=
  max_le (by norm_num) (min_le_left _ _)

theorem neg_one_le_jsClamp (x : ℚ) : -1 ≤ jsClamp x := le_max_left _ _

/-- On values already in the signed 16-bit range, the ToInt16 wrap is the
identity: no overflow happens. -/
theorem toInt16_eq_ratTrunc (q : ℚ) (h1 : -32768 ≤ ratTrunc q)
    (h2 : ratTrunc q ≤ 32767) : toInt16 q = ratTrunc q := by
  rw [toInt16, Int.emod_eq_of_lt (by omega) (by omega)]
  omega

theorem ratFloor_eval (q : ℚ) (z : ℤ) (h1 : (z : ℚ) ≤ q) (h2 : q < (z : ℚ) + 1) :
    ratFloor q = z := by
  rw [ratFloor_eq]
  exact Int.floor_eq_iff.mpr ⟨h1, by push_cast; exact h2⟩

theorem ratCeil_eval (q : ℚ) (z : ℤ) (h1 : (z : ℚ) - 1 < q) (h2 : q ≤ (z : ℚ)) :
    ratCeil q = z := by
  rw [ratCeil_eq]
  exact Int.ceil_eq_iff.mpr ⟨by push_cast; exact h1, h2⟩

/-- C6: `float32ToInt16` first clamps each sample to [-1, 1], then scales a
negative clamped sample by 32768 and a non-negative one by 32767, and the
resulting value is already in the Int16 range, so the stored Int16 sample
is exactly the truncation of that product (no wrap-around occurs). -/
theorem float32ToInt16_clamps_then_scales (buffer : List ℚ) (i : ℕ) (x : ℚ)
    (h : buffer.get? i = some x) :
    (float32ToInt16 buffer).length = buffer.length ∧
    (float32ToInt16 buffer).get? i =
      some (ratTrunc (if jsClamp x < 0 then jsClamp x * 32768 else jsClamp x * 32767)) := by
  refine ⟨by simp [float32ToInt16], ?_⟩
  rw [float32ToInt16, List.get?_map, h, Option.map_some']
  congr 1
  show toInt16 (if jsClamp x < 0 then jsClamp x * 32768 else jsClamp x * 32767) =
    ratTrunc (if jsClamp x < 0 then jsClamp x * 32768 else jsClamp x * 32767)
  have hub := jsClamp_le_one x
  have hlb := neg_one_le_jsClamp x
  by_cases hneg : jsClamp x < 0
  · rw [if_pos hneg]
    have hv : jsClamp x * 32768 < 0 := mul_neg_of_neg_of_pos hneg (by norm_num)
    apply toInt16_eq_ratTrunc <;> rw [ratTrunc, if_pos hv, ratCeil_eq]
    · have hcast : ((-32768 : ℤ) : ℚ) ≤ jsClamp x * 32768 := by push_cast; nlinarith
      calc (-32768 : ℤ) = ⌈((-32768 : ℤ) : ℚ)⌉ := (Int.ceil_intCast _).symm
        _ ≤ ⌈jsClamp x * 32768⌉ := Int.ceil_le_ceil hcast
    · have h0 : ⌈jsClamp x * 32768⌉ ≤ 0 := Int.ceil_le.mpr (by exact_mod_cast hv.le)
      omega
  · rw [if_neg hneg]
    push_neg at hneg
    have hv : 0 ≤ jsClamp x * 32767 := mul_nonneg hneg (by norm_num)
    apply toInt16_eq_ratTrunc <;> rw [ratTrunc, if_neg (not_lt.mpr hv), ratFloor_eq]
    · have := Int.floor_nonneg.mpr hv
      omega
    · have hle : jsClamp x * 32767 ≤ ((32767 : ℤ) : ℚ) := by push_cast; nlinarith
      calc ⌊jsClamp x * 32767⌋ ≤ ⌊((32767 : ℤ) : ℚ)⌋ := Int.floor_le_floor hle
        _ = 32767 := Int.floor_intCast _

/-- Witness for C6 at the concrete buffer [-1/2, 3/4], index 0. -/
theorem float32ToInt16_clamps_then_scales_witness :
    (float32ToInt16 [-1/2, 3/4]).length = ([-1/2, 3/4] : List ℚ).length ∧
    (float32ToInt16 [-1/2, 3/4]).get? 0 =
      some (ratTrunc (if jsClamp (-1/2) < 0 then jsClamp (-1/2) * 32768
                      else jsClamp (-1/2) * 32767)) :=
  float32ToInt16_clamps_then_scales [-1/2, 3/4] 0 (-1/2) rfl

/-- C7: resampling with equal source and target rates is the identity,
by the early-return guard of `resampleBuffer`. -/
theorem resampleBuffer_identity (buffer : List ℚ) (r : ℚ) :
    resampleBuffer buffer r r = buffer := by
  rw [resampleBuffer, if_pos rfl]

/-- C10 counterexample: on the buffer [0, 1] resampled from rate 2 to
rate 3 the utility resampler and the recorder-hook resampler disagree at
the last output index (the utility clamps the ceiling index to the last
sample and yields 1, the recorder reads past the end and yields 2/3). -/
theorem resample_implementations_differ :
    resampleBuffer [0, 1] 2 3 ≠ resampleBufferRecorder [0, 1] 2 3 := by
  have hne : ¬((2 : ℚ) = 3) := by norm_num
  have h1 : jsRound ((3 : ℚ)) = 3 := by
    rw [jsRound]; apply ratFloor_eval <;> norm_num
  have h3 : (3 : ℤ).toNat = 3 := rfl
  have h2n : (2 : ℤ).toNat = 2 := rfl
  have e0 : ratFloor (0 : ℚ) = 0 := by apply ratFloor_eval <;> norm_num
  have c0 : ratCeil (0 : ℚ) = 0 := by apply ratCeil_eval <;> norm_num
  have e1 : ratFloor ((2 : ℚ) / 3) = 0 := by apply ratFloor_eval <;> norm_num
  have c1 : ratCeil ((2 : ℚ) / 3) = 1 := by apply ratCeil_eval <;> norm_num
  have e2 : ratFloor ((4 : ℚ) / 3) = 1 := by apply ratFloor_eval <;> norm_num
  have c2 : ratCeil ((4 : ℚ) / 3) = 2 := by apply ratCeil_eval <;> norm_num
  have hub : resampleBuffer [0, 1] 2 3 = [0, 2/3, 1] := by
    norm_num [resampleBuffer, if_neg hne, h1, e0, c0, e1, c1, e2, c2, nthD, h3,
      List.range_succ, min_def, List.map_append,
      List.getElem?_cons_zero, List.getElem?_cons_succ, List.getElem?_nil,
      Option.getD_some, Option.getD_none]
  have hrec : resampleBufferRecorder [0, 1] 2 3 = [0, 2/3, 2/3] := by
    norm_num [resampleBufferRecorder, if_neg hne, h1, e0, c0, e1, c1, e2, c2, nthD, h3, h2n,
      List.range_succ, List.map_append,
      List.getElem?_cons_zero, List.getElem?_cons_succ, List.getElem?_nil,
      Option.getD_some, Option.getD_none]
  rw [hub, hrec]
  intro hcontra
  have hinj1 := hcontra
  injection hinj1 with hh ht
  injection ht with hh2 ht2
  injection ht2 with hh3 ht3
  norm_num at hh3

/-- C10 amended: the two resamplers agree whenever every ceiling
interpolation index stays within the input buffer (in particular for
equal rates); in general they differ, see the counterexample. -/
theorem resample_implementations_agree_within_bounds (buffer : List ℚ) (f t : ℚ)
    (h : ∀ i : ℕ, i < (jsRound ((buffer.length : ℚ) / (f / t))).toNat →
      ratCeil ((i : ℚ) * (f / t)) ≤ (buffer.length : ℤ) - 1) :
    resampleBuffer buffer f t = resampleBufferRecorder buffer f t := by
  by_cases hft : f = t
  · rw [resampleBuffer, resampleBufferRecorder, if_pos hft, if_pos hft]
  · simp only [resampleBuffer, resampleBufferRecorder, if_neg hft]
    apply List.map_congr_left
    intro i hi
    have hc := h i (List.mem_range.mp hi)
    simp only [min_eq_left hc]

/-- Witness for C10 amended at the buffer [1, 2, 3, 4] downsampled from
rate 4 to rate 2 (all ceiling indices stay in bounds). -/
theorem resample_implementations_agree_within_bounds_witness :
    resampleBuffer [1, 2, 3, 4] 4 2 = resampleBufferRecorder [1, 2, 3, 4] 4 2 := by
  apply resample_implementations_agree_within_bounds
  intro i hi
  have h2 : jsRound ((2 : ℚ)) = 2 := by
    rw [jsRound]; apply ratFloor_eval <;> norm_num
  have hi2 : i < 2 := by
    have hn : ((([1, 2, 3, 4] : List ℚ).length : ℚ) / ((4 : ℚ) / 2)) = 2 := by norm_num
    rw [hn, h2] at hi
    exact hi
  have c0 : ratCeil (0 : ℚ) = 0 := by apply ratCeil_eval <;> norm_num
  have c2 : ratCeil (2 : ℚ) = 2 := by apply ratCeil_eval <;> norm_num
  interval_cases i <;> norm_num [c0, c2]

/-! ### Base64 framing (src/utils/audio.ts lines 177-208)

`audioBufferToBase64` views the `Int16Array` backing store as bytes
(little-endian), builds a binary string from 32KB (0x8000-byte) windows,
and calls the platform `btoa`.  `base64ToAudioBuffer` calls `atob` and
reinterprets the byte buffer as an `Int16Array`.  `btoa`/`atob` are the
standard RFC 4648 base64 encoder/decoder over latin-1 strings; both are
modelled below over lists of character codes. -/

/-- Standard base64 alphabet, as a character code: indices 0-25 map to
A-Z (65-90), 26-51 to a-z (97-122), 52-61 to 0-9 (48-57), 62 to plus
(43) and 63 to slash (47). -/
def b64CharCode (n : ℕ) : ℕ :=
  if n < 26 then 65 + n
  else if n < 52 then 71 + n
  else if n < 62 then n - 4
  else if n = 62 then 43 else 47

/-- Inverse of the base64 alphabet on character codes. -/
def b64Value (c : ℕ) : ℕ :=
  if 65 ≤ c ∧ c ≤ 90 then c - 65
  else if 97 ≤ c ∧ c ≤ 122 then c - 71
  else if 48 ≤ c ∧ c ≤ 57 then c + 4
  else if c = 43 then 62 else 63

/-- The platform `btoa`: RFC 4648 base64 over a byte list, producing the
character codes of the base64 string (61 is the padding character =). -/
def btoaEncode : List ℕ → List ℕ
  | [] => []
  | [b0] => [b64CharCode (b0 / 4), b64CharCode (b0 % 4 * 16), 61, 61]
  | [b0, b1] => [b64CharCode (b0 / 4), b64CharCode (b0 % 4 * 16 + b1 / 16),
      b64CharCode (b1 % 16 * 4), 61]
  | b0 :: b1 :: b2 :: rest =>
      b64CharCode (b0 / 4) :: b64CharCode (b0 % 4 * 16 + b1 / 16) ::
      b64CharCode (b1 % 16 * 4 + b2 / 64) :: b64CharCode (b2 % 64) ::
      btoaEncode rest

/-- The platform `atob`: decodes groups of four base64 characters into
three bytes; a group ending in one or two padding characters yields two
bytes or one byte and terminates the data. -/
def atobDecode : List ℕ → List ℕ
  | c0 :: c1 :: c2 :: c3 :: rest =>
      if c2 = 61 then [b64Value c0 * 4 + b64Value c1 / 16]
      else if c3 = 61 then
        [b64Value c0 * 4 + b64Value c1 / 16, b64Value c1 % 16 * 16 + b64Value c2 / 4]
      else
        (b64Value c0 * 4 + b64Value c1 / 16) ::
        (b64Value c1 % 16 * 16 + b64Value c2 / 4) ::
        (b64Value c2 % 4 * 64 + b64Value c3) ::
        atobDecode rest
  | _ => []

/-- Little-endian byte view of an `Int16Array` backing buffer (what
`new Uint8Array(buffer.buffer)` reads): each sample contributes its low
byte then its high byte, after the two's-complement 16-bit encoding. -/
def int16ToBytes (samples : List ℤ) : List ℕ :=
  (samples.map (fun z => let u := (z % 65536).toNat; [u % 256, u / 256])).flatten

/-- Reading an even-length byte buffer back as an `Int16Array`
(little-endian, two's complement). -/
def bytesToInt16 : List ℕ → List ℤ
  | lo :: hi :: rest =>
      (let u : ℕ := lo + 256 * hi
       if u < 32768 then (u : ℤ) else (u : ℤ) - 65536) :: bytesToInt16 rest
  | _ => []

/-- The 32KB windowing of the byte buffer performed by
`audioBufferToBase64` (chunk boundaries at multiples of 0x8000 = 32768)
before string concatenation. -/
def chunksOf32768 (l : List ℕ) : List (List ℕ) :=
  if l = [] then [] else l.take 32768 :: chunksOf32768 (l.drop 32768)
termination_by l.length
decreasing_by
  simp only [List.length_drop]
  rename_i h
  have := List.length_pos.mpr h
  omega

/-- Embeds `audioBufferToBase64` (src/utils/audio.ts lines 177-188): byte view,
binary string built from 32KB windows, then `btoa`. -/
def audioBufferToBase64 (samples : List ℤ) : List ℕ :=
  btoaEncode ((chunksOf32768 (int16ToBytes samples)).flatten)

/-- Embeds `base64ToAudioBuffer` (src/utils/audio.ts lines 193-208): `atob`,
then the byte buffer reinterpreted as an `Int16Array`. -/
def base64ToAudioBuffer (b64 : List ℕ) : List ℤ :=
  bytesToInt16 (atobDecode b64)

theorem b64Value_b64CharCode (n : ℕ) (h : n < 64) :
    b64Value (b64CharCode n) = n := by
  rw [b64CharCode, b64Value]
  split_ifs <;> omega

theorem b64CharCode_ne_61 (n : ℕ) : b64CharCode n ≠ 61 := by
  rw [b64CharCode]
  split_ifs <;> omega

/-- Concatenating the 32KB windows reproduces the byte buffer: the
windowing is only a call-stack workaround and does not change the
encoded bytes. -/
theorem flatten_chunksOf32768 (l : List ℕ) : (chunksOf32768 l).flatten = l := by
  rw [chunksOf32768]
  by_cases h : l = []
  · simp [h]
  · rw [if_neg h, List.flatten_cons, flatten_chunksOf32768 (l.drop 32768)]
    exact List.take_append_drop 32768 l
termination_by l.length
decreasing_by
  simp only [List.length_drop]
  have := List.length_pos.mpr h
  omega

/-- Round trip of the byte-level base64 codec on genuine bytes. -/
theorem atobDecode_btoaEncode : ∀ bytes : List ℕ, (∀ b ∈ bytes, b < 256) →
    atobDecode (btoaEncode bytes) = bytes
  | [], _ => by rfl
  | [b0], h => by
    have hb0 : b0 < 256 := h b0 (by simp)
    rw [btoaEncode, atobDecode, if_pos rfl,
      b64Value_b64CharCode _ (by omega), b64Value_b64CharCode _ (by omega)]
    have : b0 / 4 * 4 + b0 % 4 * 16 / 16 = b0 := by omega
    rw [this]
  | [b0, b1], h => by
    have hb0 : b0 < 256 := h b0 (by simp)
    have hb1 : b1 < 256 := h b1 (by simp)
    rw [btoaEncode, atobDecode, if_neg (b64CharCode_ne_61 _), if_pos rfl,
      b64Value_b64CharCode _ (by omega), b64Value_b64CharCode _ (by omega),
      b64Value_b64CharCode _ (by omega)]
    have e0 : b0 / 4 * 4 + (b0 % 4 * 16 + b1 / 16) / 16 = b0 := by omega
    have e1 : (b0 % 4 * 16 + b1 / 16) % 16 * 16 + b1 % 16 * 4 / 4 = b1 := by omega
    rw [e0, e1]
  | b0 :: b1 :: b2 :: rest, h => by
    have hb0 : b0 < 256 := h b0 (by simp)
    have hb1 : b1 < 256 := h b1 (by simp)
    have hb2 : b2 < 256 := h b2 (by simp)
    rw [btoaEncode, atobDecode, if_neg (b64CharCode_ne_61 _),
      if_neg (b64CharCode_ne_61 _),
      b64Value_b64CharCode _ (by omega), b64Value_b64CharCode _ (by omega),
      b64Value_b64CharCode _ (by omega), b64Value_b64CharCode _ (by omega)]
    have e0 : b0 / 4 * 4 + (b0 % 4 * 16 + b1 / 16) / 16 = b0 := by omega
    have e1 : (b0 % 4 * 16 + b1 / 16) % 16 * 16 + (b1 % 16 * 4 + b2 / 64) / 4 = b1 := by omega
    have e2 : (b1 % 16 * 4 + b2 / 64) % 4 * 64 + b2 % 64 = b2 := by omega
    rw [e0, e1, e2, atobDecode_btoaEncode rest (fun b hb => h b (by simp [hb]))]

theorem int16ToBytes_lt_256 (samples : List ℤ) :
    ∀ b ∈ int16ToBytes samples, b < 256 := by
  intro b hb
  rw [int16ToBytes] at hb
  simp only [List.mem_flatten, List.mem_map] at hb
  obtain ⟨l, ⟨z, _, hzl⟩, hbl⟩ := hb
  subst hzl
  simp only [List.mem_cons, List.not_mem_nil, or_false] at hbl
  have hmod : (0 : ℤ) ≤ z % 65536 := Int.emod_nonneg z (by norm_num)
  have hlt : z % 65536 < 65536 := Int.emod_lt_of_pos z (by norm_num)
  have hu : (z % 65536).toNat < 65536 := by omega
  rcases hbl with hbl | hbl <;> subst hbl <;> omega

/-- Per-sample round trip through the little-endian byte view. -/
theorem bytesToInt16_int16ToBytes (samples : List ℤ)
    (h : ∀ z ∈ samples, -32768 ≤ z ∧ z < 32768) :
    bytesToInt16 (int16ToBytes samples) = samples := by
  induction samples with
  | nil => rfl
  | cons z rest ih =>
    obtain ⟨hz1, hz2⟩ := h z (by simp)
    have hmod : (0 : ℤ) ≤ z % 65536 := Int.emod_nonneg z (by norm_num)
    have hlt : z % 65536 < 65536 := Int.emod_lt_of_pos z (by norm_num)
    have hrest : bytesToInt16 (int16ToBytes rest) = rest :=
      ih (fun w hw => h w (by simp [hw]))
    have hcons : int16ToBytes (z :: rest) =
        (z % 65536).toNat % 256 :: (z % 65536).toNat / 256 :: int16ToBytes rest := by
      rw [int16ToBytes, int16ToBytes]
      simp [List.map_cons, List.flatten_cons]
    rw [hcons, bytesToInt16, hrest]
    congr 1
    have hsplit : (z % 65536).toNat % 256 + 256 * ((z % 65536).toNat / 256)
        = (z % 65536).toNat := by omega
    simp only [hsplit]
    split <;> omega

/-- C8: decoding the base64 produced by `audioBufferToBase64` restores
the original Int16 buffer, for every buffer of in-range samples
(including the empty buffer and buffers spanning 32KB chunk windows). -/
theorem base64_roundtrip (samples : List ℤ)
    (h : ∀ z ∈ samples, -32768 ≤ z ∧ z < 32768) :
    base64ToAudioBuffer (audioBufferToBase64 samples) = samples := by
  rw [audioBufferToBase64, base64ToAudioBuffer, flatten_chunksOf32768,
    atobDecode_btoaEncode _ (int16ToBytes_lt_256 samples),
    bytesToInt16_int16ToBytes samples h]

/-- Witness for C8 at a concrete buffer covering zero, both range ends
and an odd sample count. -/
theorem base64_roundtrip_witness :
    base64ToAudioBuffer (audioBufferToBase64 [0, 1, -1, 32767, -32768])
      = [0, 1, -1, 32767, -32768] :=
  base64_roundtrip [0, 1, -1, 32767, -32768] (by decide)

/-! ### Protocol frames and orchestrator state (src/app/page.tsx)

`FanoSTTRequest` frames: the `streamingConfig` frame (its `config`
payload -- language, sample rate, encoding, flags -- is constant for each
send site and irrelevant to the claims, so it is abstracted to a marker),
the `audioContent` frame carrying a base64 string (modelled as character
codes), and the literal "EOF" frame.

`TranscriptSegment`s carry `id` (derived from `Date.now()` and a
counter), `confidence`, `startTime`, `endTime`; only `text` and `isFinal`
are relevant to the claims, the rest is abstracted away. -/

inductive ReqMsg where
  | config : ReqMsg
  | audioContent : List ℕ → ReqMsg
  | eof : ReqMsg
deriving DecidableEq

structure Segment where
  text : String
  isFinal : Bool
deriving DecidableEq

/-- One entry of `message.data.results`: the transcript texts of its
`alternatives` (the handler reads `alternatives[0].transcript` and skips
results with no alternatives), plus the `isFinal` flag. -/
structure STTResult where
  alternatives : List String
  isFinal : Bool
deriving DecidableEq

/-- Inbound `FanoSTTResponse` frames relevant to the orchestrator:
the "EOF" acknowledgement, a results batch, and an error payload (the
`deadlineExceeded` flag models whether `message.data.error.message`
contains the DEADLINE_EXCEEDED marker). -/
inductive RespMsg where
  | eofAck : RespMsg
  | results : List STTResult → RespMsg
  | error : ℕ → Bool → RespMsg
deriving DecidableEq

/-- The `ConnectionState` union from src/types/index.ts. -/
inductive ConnState where
  | disconnected | connecting | connected | reconnecting | error
deriving DecidableEq

/-- The `useState` cells of the HomePage component that participate in
the streaming claims (src/app/page.tsx lines 59-115).  UI-only state
(toasts, drag state, upload progress, audio level, statistics) is
omitted; `lastRequest` is tracked only where a claim needs it. -/
structure AppState where
  connState : ConnState
  transcripts : List Segment
  finalTranscript : String
  interimTranscript : String
  isProcessing : Bool
  isSendingFile : Bool
  hasActiveRequest : Bool
  isRetrying : Bool
  eofSent : Bool
  isRecording : Bool
  isRecovering : Bool
  wasRecordingBeforeDisconnect : Bool
  recoveryAttempts : ℕ
  pendingChunks : List ReqMsg
  bufferedTranscripts : List Segment
  bufferedFinalTranscript : String
  bufferedInterimTranscript : String
deriving DecidableEq

/-- JS string-concatenation step used for final transcripts:
`prev + (prev ? " " : "") + transcript` (empty string is falsy). -/
def appendFinal (prev text : String) : String :=
  prev ++ (if prev = "" then "" else " ") ++ text

/-- One result of `message.data.results` processed by
`handleWebSocketMessage` (src/app/page.tsx lines 165-244): a final
result appends a segment (buffered during live-recording recovery,
visible otherwise); an interim result replaces the interim text
(buffered during recovery, visible otherwise). -/
def processResult (s : AppState) (r : STTResult) : AppState :=
  match r.alternatives with
  | [] => s
  | t :: _ =>
    if r.isFinal then
      let seg : Segment := ⟨t, true⟩
      if s.isRecovering && s.wasRecordingBeforeDisconnect then
        { s with
          bufferedFinalTranscript := appendFinal s.bufferedFinalTranscript t,
          bufferedTranscripts := s.bufferedTranscripts ++ [seg] }
      else
        { s with
          finalTranscript := appendFinal s.finalTranscript t,
          interimTranscript := "",
          transcripts := s.transcripts ++ [seg] }
    else
      if s.isRecovering && s.wasRecordingBeforeDisconnect then
        { s with bufferedInterimTranscript := t }
      else
        { s with interimTranscript := t }

/-- Embeds `handleWebSocketMessage` (src/app/page.tsx lines 143-276).  The EOF
acknowledgement clears the processing/active/sending flags; a results
frame is folded result by result; an error frame with code 4 and the
DEADLINE_EXCEEDED marker only sets the retry flag, any other error
clears the processing/active/sending flags. -/
def handleWebSocketMessage (s : AppState) : RespMsg → AppState
  | RespMsg.eofAck =>
      { s with isProcessing := false, hasActiveRequest := false, isSendingFile := false }
  | RespMsg.results rs => rs.foldl processResult s
  | RespMsg.error code deadline =>
      if code = 4 && deadline then { s with isRetrying := true }
      else { s with isProcessing := false, hasActiveRequest := false, isSendingFile := false }

/-- The `onConnect` callback passed to `useWebSocket`
(src/app/page.tsx lines 286-344), entered with the connection freshly
`connected`.  During live-recording recovery it sends the configuration
frame, then every pending chunk in index order (the source staggers them
with strictly increasing `setTimeout` delays of `index * 50` ms), clears
the pending queue and the recovery counters, and copies the shadow
transcript buffers into the visible transcript when the shadow segment
list is non-empty -- without clearing the shadow buffers. -/
def onConnect (s : AppState) : AppState × List ReqMsg :=
  let s0 := { s with connState := ConnState.connected }
  if s0.wasRecordingBeforeDisconnect && s0.isRecording then
    let sent := ReqMsg.config :: s0.pendingChunks
    let s1 := { s0 with
      pendingChunks := [],
      isRecovering := false,
      recoveryAttempts := 0 }
    let s2 :=
      if s1.bufferedTranscripts.length > 0 then
        { s1 with
          transcripts := s1.bufferedTranscripts,
          finalTranscript := s1.bufferedFinalTranscript,
          interimTranscript := s1.bufferedInterimTranscript }
      else s1
    (s2, sent)
  else (s0, [])

/-- The `onDisconnect` callback (src/app/page.tsx lines 345-385),
entered with the connection just closed.  It resets the EOF idempotency
flag; during a file upload it marks the request for retry; during
recovering live recording it increments the attempt counter, and once
the counter (read before the increment) has reached 5 it stops the
recording and clears the recovery flags. -/
def onDisconnect (s : AppState) : AppState :=
  let s0 := { s with connState := ConnState.disconnected, eofSent := false }
  if s0.isSendingFile && s0.hasActiveRequest && !s0.isRetrying then
    { s0 with isRetrying := true }
  else if s0.isRecording && s0.wasRecordingBeforeDisconnect then
    let s1 := { s0 with recoveryAttempts := s0.recoveryAttempts + 1 }
    if s0.recoveryAttempts < 5 then s1
    else { s1 with
      isRecovering := false,
      wasRecordingBeforeDisconnect := false,
      isRecording := false }
  else s0

/-- Embeds `handleStopRecording` (src/app/page.tsx lines 1357-1396): stop the
recorder, clear the recovery state and shadow buffers, and send one EOF
frame only when connected and not yet sent on this connection
generation, marking the idempotency flag. -/
def handleStopRecording (s : AppState) : AppState × List ReqMsg :=
  let s1 := { s with
    isRecording := false,
    isRecovering := false,
    recoveryAttempts := 0,
    wasRecordingBeforeDisconnect := false,
    pendingChunks := [],
    bufferedTranscripts := [],
    bufferedFinalTranscript := "",
    bufferedInterimTranscript := "" }
  if s1.connState = ConnState.connected && s1.eofSent = false then
    ({ s1 with eofSent := true }, [ReqMsg.eof])
  else (s1, [])

/-- Embeds `handleStartRecording` (src/app/page.tsx lines 1192-1355), success
path with the connection already established: send the configuration
frame, clear the visible transcript and the shadow buffers, reset the
EOF idempotency flag, and start the recorder. -/
def handleStartRecording (s : AppState) : AppState × List ReqMsg :=
  ({ s with
      transcripts := [],
      finalTranscript := "",
      interimTranscript := "",
      bufferedTranscripts := [],
      bufferedFinalTranscript := "",
      bufferedInterimTranscript := "",
      eofSent := false,
      isRecording := true }, [ReqMsg.config])

/-- The pending-chunk enqueue step, literally
`setPendingChunks((prev) => [...prev, message].slice(-50))`
(src/app/page.tsx lines 791 and 795): append, then keep the last 50. -/
def enqueuePending (prev : List ReqMsg) (message : ReqMsg) : List ReqMsg :=
  ((prev ++ [message]).drop ((prev ++ [message]).length - 50))

/-- Embeds `processUploadedFile` (src/app/page.tsx lines 1023-1189), success
path.  The routine sets the processing/sending flags and clears the
transcript, sends one configuration frame (whose payload comes from
`createSTTConfigForFile`), base64-encodes the whole file with the same
32KB-windowed `btoa` (lines 1109-1118) and sends it as one audio-content
frame, sends one EOF frame, and then clears the sending and processing
flags itself, before any response arrives (lines 1176-1178). -/
def processUploadedFile (s : AppState) (fileBytes : List ℕ) : AppState × List ReqMsg :=
  let s1 := { s with
    isProcessing := true,
    transcripts := [],
    finalTranscript := "",
    isSendingFile := true,
    hasActiveRequest := true }
  let base64Data := btoaEncode ((chunksOf32768 fileBytes).flatten)
  let s2 := { s1 with isSendingFile := false, isProcessing := false }
  (s2, [ReqMsg.config, ReqMsg.audioContent base64Data, ReqMsg.eof])

/-! ### Reconnection policies

Two independent reconnection mechanisms exist:
* the WebSocket hook itself (src/hooks/useWebSocket.ts lines 182-229):
  on a non-manual close with fewer than `reconnectAttempts = 5` previous
  attempts it schedules a reconnect after
  `min(reconnectInterval * 1.5^(n-1), 30000)` ms with
  `reconnectInterval = 3000` (both parameter defaults, the page passes
  neither);
* the page-level live-recording recovery (src/app/page.tsx lines
  803-834): on the n-th attempt (n = `recoveryAttempts`, starting at 0)
  it schedules `connect()` after `min(1000 * 2^n, 10000)` ms and gives
  up once 5 attempts are reached. -/

/-- Hook-level reconnect delay for the n-th reconnect attempt (n ≥ 1):
`Math.min(reconnectInterval * Math.pow(1.5, n - 1), 30000)` with the
default `reconnectInterval = 3000`. -/
def wsReconnectDelay (n : ℕ) : ℚ := min (3000 * (3/2) ^ (n - 1)) 30000

/-- Page-level recovery delay:
`Math.min(1000 * Math.pow(2, recoveryAttempts), 10000)`. -/
def pageReconnectDelay (n : ℕ) : ℕ := min (1000 * 2 ^ n) 10000

/-- The delay the spec sentence describes: doubling from a 1-second base,
capped at 30 seconds.  Stated only to be compared against the code's
delay functions. -/
def specClaimedDelay (n : ℕ) : ℕ := min (1000 * 2 ^ n) 30000

/-- The reconnection-relevant refs of the `useWebSocket` hook:
`reconnectCountRef` and `isManuallyClosedRef`. -/
structure WsState where
  reconnectCount : ℕ
  manuallyClosed : Bool
deriving DecidableEq

/-- The reconnect decision of `handleClose` (src/hooks/useWebSocket.ts
lines 198-220): when the close was not manual and fewer than 5 attempts
were made, increment the counter and schedule one reconnect attempt
(returned as `true`). -/
def wsHandleClose (s : WsState) : WsState × Bool :=
  if !s.manuallyClosed && s.reconnectCount < 5 then
    ({ s with reconnectCount := s.reconnectCount + 1 }, true)
  else (s, false)

/-- Total number of reconnect attempts scheduled over a run of `n`
consecutive close events. -/
def wsAttemptsAfter (s : WsState) : ℕ → ℕ
  | 0 => 0
  | n + 1 =>
      let step := wsHandleClose s
      (if step.2 then 1 else 0) + wsAttemptsAfter step.1 n

/-! ### Pending-queue FIFO lemmas -/

/-- JS `array.slice(-50)`: the suffix of the last (at most) 50 elements. -/
def sliceLast50 (l : List ReqMsg) : List ReqMsg := l.drop (l.length - 50)

theorem enqueuePending_eq (prev : List ReqMsg) (m : ReqMsg) :
    enqueuePending prev m = sliceLast50 (prev ++ [m]) := rfl

theorem length_sliceLast50_le (l : List ReqMsg) : (sliceLast50 l).length ≤ 50 := by
  rw [sliceLast50, List.length_drop]
  omega

theorem sliceLast50_of_le (l : List ReqMsg) (h : l.length ≤ 50) :
    sliceLast50 l = l := by
  rw [sliceLast50]
  have : l.length - 50 = 0 := by omega
  rw [this, List.drop_zero]

theorem sliceLast50_append (l r : List ReqMsg) :
    sliceLast50 (sliceLast50 l ++ r) = sliceLast50 (l ++ r) := by
  unfold sliceLast50
  rw [List.drop_append_eq_append_drop, List.drop_append_eq_append_drop, List.drop_drop]
  congr 1
  · congr 1
    simp only [List.length_append, List.length_drop]
    omega
  · congr 1
    simp only [List.length_append, List.length_drop]
    omega

/-- Folding the enqueue step keeps exactly the last 50 of everything
appended so far. -/
theorem foldl_enqueuePending (ms : List ReqMsg) : ∀ q : List ReqMsg, q.length ≤ 50 →
    ms.foldl enqueuePending q = sliceLast50 (q ++ ms) := by
  induction ms with
  | nil => intro q hq; rw [List.foldl_nil, List.append_nil, sliceLast50_of_le q hq]
  | cons m ms ih =>
    intro q hq
    rw [List.foldl_cons, ih (enqueuePending q m)
      (by rw [enqueuePending_eq]; exact length_sliceLast50_le _),
      enqueuePending_eq, sliceLast50_append]
    rw [List.append_assoc]
    rfl

/-- The initial HomePage state (the `useState` default values of
src/app/page.tsx lines 59-115). -/
def initialState : AppState :=
  { connState := ConnState.disconnected,
    transcripts := [],
    finalTranscript := "",
    interimTranscript := "",
    isProcessing := false,
    isSendingFile := false,
    hasActiveRequest := false,
    isRetrying := false,
    eofSent := false,
    isRecording := false,
    isRecovering := false,
    wasRecordingBeforeDisconnect := false,
    recoveryAttempts := 0,
    pendingChunks := [],
    bufferedTranscripts := [],
    bufferedFinalTranscript := "",
    bufferedInterimTranscript := "" }

/-- C1: after enqueuing more than 50 messages into the pending-chunk
queue (each step being the literal `[...prev, message].slice(-50)`
update), the queue holds exactly the most recent 50 messages in their
original relative order, and the reconnection handler drains them all,
in that same order, right after the re-sent configuration frame,
leaving the queue empty. -/
theorem pendingChunks_fifo_capacity (ms : List ReqMsg) (s : AppState)
    (hlen : 50 < ms.length)
    (hq : s.pendingChunks = ms.foldl enqueuePending [])
    (hwas : s.wasRecordingBeforeDisconnect = true)
    (hrecd : s.isRecording = true) :
    s.pendingChunks = ms.drop (ms.length - 50) ∧
    s.pendingChunks.length = 50 ∧
    (onConnect s).2 = ReqMsg.config :: ms.drop (ms.length - 50) ∧
    (onConnect s).1.pendingChunks = [] := by
  have hfold : ms.foldl enqueuePending [] = ms.drop (ms.length - 50) := by
    rw [foldl_enqueuePending ms [] (by simp), List.nil_append, sliceLast50]
  have hq' : s.pendingChunks = ms.drop (ms.length - 50) := hq.trans hfold
  refine ⟨hq', ?_, ?_, ?_⟩
  · rw [hq', List.length_drop]
    omega
  · rw [onConnect]
    simp only [hwas, hrecd, Bool.and_self, if_true]
    rw [hq']
  · rw [onConnect]
    simp only [hwas, hrecd, Bool.and_self, if_true]
    split <;> rfl

set_option maxRecDepth 4000 in
/-- Witness for C1: 51 distinct audio frames enqueued from the empty
queue while recording during a disconnect. -/
theorem pendingChunks_fifo_capacity_witness :
    let ms := (List.range 51).map (fun i => ReqMsg.audioContent [i])
    let s := { initialState with
      wasRecordingBeforeDisconnect := true,
      isRecording := true,
      pendingChunks := ms.foldl enqueuePending [] }
    s.pendingChunks = ms.drop (ms.length - 50) ∧
    s.pendingChunks.length = 50 ∧
    (onConnect s).2 = ReqMsg.config :: ms.drop (ms.length - 50) ∧
    (onConnect s).1.pendingChunks = [] :=
  pendingChunks_fifo_capacity _ _ (by simp) rfl rfl rfl

/-- C2: on one connection generation, stopping twice in succession sends
exactly one EOF frame: the first (connected, flag clear) stop emits the
frame and sets the idempotency flag, the second emits nothing. -/
theorem stop_twice_sends_one_eof (s : AppState)
    (hc : s.connState = ConnState.connected) (he : s.eofSent = false) :
    (handleStopRecording s).2 = [ReqMsg.eof] ∧
    (handleStopRecording (handleStopRecording s).1).2 = [] ∧
    ((handleStopRecording s).2 ++
      (handleStopRecording (handleStopRecording s).1).2).length = 1 := by
  have h1 : (handleStopRecording s).2 = [ReqMsg.eof] := by
    rw [handleStopRecording]
    simp [hc, he]
  have h2 : (handleStopRecording (handleStopRecording s).1).2 = [] := by
    rw [handleStopRecording, handleStopRecording]
    simp [hc, he]
  exact ⟨h1, h2, by simp [h1, h2]⟩

/-- Witness for C2 at the connected fresh state. -/
theorem stop_twice_sends_one_eof_witness :
    let s := { initialState with connState := ConnState.connected }
    (handleStopRecording s).2 = [ReqMsg.eof] ∧
    (handleStopRecording (handleStopRecording s).1).2 = [] ∧
    ((handleStopRecording s).2 ++
      (handleStopRecording (handleStopRecording s).1).2).length = 1 :=
  stop_twice_sends_one_eof _ rfl rfl

/-- The recovery state in which live-recording results are buffered:
recording, recovering, with the was-recording marker set. -/
def recoveringState : AppState :=
  { initialState with
    isRecording := true,
    isRecovering := true,
    wasRecordingBeforeDisconnect := true }

/-- The state reached by buffering final results "A" then "B" while
recovering. -/
def bufferedABState : AppState :=
  handleWebSocketMessage
    (handleWebSocketMessage recoveringState (RespMsg.results [⟨["A"], true⟩]))
    (RespMsg.results [⟨["B"], true⟩])

/-- C3 counterexample: buffering final segments "A" then "B" during
recovery and then reconnecting makes the visible transcript "A B", but
the shadow buffer is NOT empty afterwards -- `onConnect` copies the
shadow buffers into the visible transcript without clearing them. -/
theorem recovery_merge_leaves_shadow_nonempty :
    ¬((onConnect bufferedABState).1.finalTranscript = "A B" ∧
      (onConnect bufferedABState).1.bufferedTranscripts = []) := by
  decide

/-- C3 amended: after a successful reconnection during live-recording
recovery, the visible transcript, interim text and segment list are
replaced by the shadow buffers (so a shadow holding [A, B] yields the
visible transcript "A B"), but the shadow buffers retain their contents;
they are cleared only by the next recording start or stop. -/
theorem recovery_merge_replaces_visible (s : AppState)
    (hwas : s.wasRecordingBeforeDisconnect = true)
    (hrec : s.isRecording = true)
    (hbuf : s.bufferedTranscripts ≠ []) :
    (onConnect s).1.finalTranscript = s.bufferedFinalTranscript ∧
    (onConnect s).1.interimTranscript = s.bufferedInterimTranscript ∧
    (onConnect s).1.transcripts = s.bufferedTranscripts ∧
    (onConnect s).1.bufferedTranscripts = s.bufferedTranscripts ∧
    (handleStartRecording (onConnect s).1).1.bufferedTranscripts = [] ∧
    (handleStopRecording (onConnect s).1).1.bufferedTranscripts = [] := by
  have hlen : s.bufferedTranscripts.length > 0 := List.length_pos.mpr hbuf
  refine ⟨?_, ?_, ?_, ?_, ?_, ?_⟩
  · simp [onConnect, hwas, hrec, hlen]
  · simp [onConnect, hwas, hrec, hlen]
  · simp [onConnect, hwas, hrec, hlen]
  · simp [onConnect, hwas, hrec, hlen]
  · simp [onConnect, handleStartRecording, hwas, hrec, hlen]
  · simp only [handleStopRecording]
    split <;> simp [onConnect, hwas, hrec, hlen]

/-- Witness for C3 amended: shadow buffer [A, B] with visible transcript
empty; the merged visible transcript is "A B". -/
theorem recovery_merge_replaces_visible_witness :
    let s := { recoveringState with
      bufferedTranscripts := [⟨"A", true⟩, ⟨"B", true⟩],
      bufferedFinalTranscript := "A B" }
    (onConnect s).1.finalTranscript = s.bufferedFinalTranscript ∧
    (onConnect s).1.interimTranscript = s.bufferedInterimTranscript ∧
    (onConnect s).1.transcripts = s.bufferedTranscripts ∧
    (onConnect s).1.bufferedTranscripts = s.bufferedTranscripts ∧
    (handleStartRecording (onConnect s).1).1.bufferedTranscripts = [] ∧
    (handleStopRecording (onConnect s).1).1.bufferedTranscripts = [] :=
  recovery_merge_replaces_visible _ rfl rfl (by decide)

/-- C9: outside recovery, an interim result replaces the interim text,
a final result appends its text to the final transcript (space
separated), clears the interim text and appends a final segment; the
concrete scenario interim "hel" then final "hello" from a fresh
recording start leaves exactly the visible transcript "hello" with no
interim text. -/
theorem interim_replaced_final_appended (s : AppState) (t : String)
    (hrec : s.isRecovering = false) :
    processResult s ⟨[t], false⟩ = { s with interimTranscript := t } ∧
    processResult s ⟨[t], true⟩ =
      { s with
        finalTranscript := appendFinal s.finalTranscript t,
        interimTranscript := "",
        transcripts := s.transcripts ++ [⟨t, true⟩] } ∧
    ((handleWebSocketMessage
        (handleWebSocketMessage (handleStartRecording s).1
          (RespMsg.results [⟨["hel"], false⟩]))
        (RespMsg.results [⟨["hello"], true⟩])).finalTranscript = "hello" ∧
     (handleWebSocketMessage
        (handleWebSocketMessage (handleStartRecording s).1
          (RespMsg.results [⟨["hel"], false⟩]))
        (RespMsg.results [⟨["hello"], true⟩])).interimTranscript = "" ∧
     (handleWebSocketMessage
        (handleWebSocketMessage (handleStartRecording s).1
          (RespMsg.results [⟨["hel"], false⟩]))
        (RespMsg.results [⟨["hello"], true⟩])).transcripts.map Segment.text
       = ["hello"]) := by
  refine ⟨?_, ?_, ?_⟩
  · rw [processResult]
    simp [hrec]
  · rw [processResult]
    simp [hrec]
  · simp [handleWebSocketMessage, handleStartRecording, processResult, hrec, appendFinal]

/-- Witness for C9 at the fresh state and the text "x". -/
theorem interim_replaced_final_appended_witness :
    processResult initialState ⟨["x"], false⟩
      = { initialState with interimTranscript := "x" } ∧
    processResult initialState ⟨["x"], true⟩ =
      { initialState with
        finalTranscript := appendFinal initialState.finalTranscript "x",
        interimTranscript := "",
        transcripts := initialState.transcripts ++ [⟨"x", true⟩] } ∧
    ((handleWebSocketMessage
        (handleWebSocketMessage (handleStartRecording initialState).1
          (RespMsg.results [⟨["hel"], false⟩]))
        (RespMsg.results [⟨["hello"], true⟩])).finalTranscript = "hello" ∧
     (handleWebSocketMessage
        (handleWebSocketMessage (handleStartRecording initialState).1
          (RespMsg.results [⟨["hel"], false⟩]))
        (RespMsg.results [⟨["hello"], true⟩])).interimTranscript = "" ∧
     (handleWebSocketMessage
        (handleWebSocketMessage (handleStartRecording initialState).1
          (RespMsg.results [⟨["hel"], false⟩]))
        (RespMsg.results [⟨["hello"], true⟩])).transcripts.map Segment.text
       = ["hello"]) :=
  interim_replaced_final_appended initialState "x" rfl

/-- C5 counterexample: `processUploadedFile` clears the processing flag
itself, immediately after sending the EOF frame, before any EOF
acknowledgement has been received (src/app/page.tsx lines 1176-1178) --
so the flag does NOT clear only upon the acknowledgement. -/
theorem upload_clears_processing_before_ack :
    ¬((processUploadedFile initialState [1, 2, 3]).1.isProcessing = true) := by
  intro hcontra
  have : (processUploadedFile initialState [1, 2, 3]).1.isProcessing = false := rfl
  rw [this] at hcontra
  exact Bool.false_ne_true hcontra

/-- C5 amended: a file upload sends exactly one configuration frame,
then exactly one audio-content frame carrying the base64 encoding of the
whole file (decoding it restores the file byte for byte), then exactly
one EOF frame, in that order; but the processing and sending flags are
cleared by the upload routine itself right after the EOF frame is sent
(the EOF-acknowledgement handler also clears them, redundantly). -/
theorem upload_sends_config_audio_eof_once (s : AppState) (fileBytes : List ℕ)
    (hf : ∀ b ∈ fileBytes, b < 256) :
    (processUploadedFile s fileBytes).2 =
      [ReqMsg.config,
       ReqMsg.audioContent (btoaEncode ((chunksOf32768 fileBytes).flatten)),
       ReqMsg.eof] ∧
    atobDecode (btoaEncode ((chunksOf32768 fileBytes).flatten)) = fileBytes ∧
    (processUploadedFile s fileBytes).1.isProcessing = false ∧
    (processUploadedFile s fileBytes).1.isSendingFile = false ∧
    (∀ s' : AppState, (handleWebSocketMessage s' RespMsg.eofAck).isProcessing = false) := by
  refine ⟨rfl, ?_, rfl, rfl, fun s' => rfl⟩
  rw [flatten_chunksOf32768]
  exact atobDecode_btoaEncode fileBytes hf

/-- Witness for C5 amended at the three-byte file [1, 2, 3]. -/
theorem upload_sends_config_audio_eof_once_witness :
    (processUploadedFile initialState [1, 2, 3]).2 =
      [ReqMsg.config,
       ReqMsg.audioContent (btoaEncode ((chunksOf32768 [1, 2, 3]).flatten)),
       ReqMsg.eof] ∧
    atobDecode (btoaEncode ((chunksOf32768 [1, 2, 3]).flatten)) = [1, 2, 3] ∧
    (processUploadedFile initialState [1, 2, 3]).1.isProcessing = false ∧
    (processUploadedFile initialState [1, 2, 3]).1.isSendingFile = false ∧
    (∀ s' : AppState, (handleWebSocketMessage s' RespMsg.eofAck).isProcessing = false) :=
  upload_sends_config_audio_eof_once initialState [1, 2, 3] (by decide)

/-- C4 counterexample: the reconnect delays are not "doubling from a
1-second base capped at 30 s".  The page-level recovery delay for the
fifth attempt is 10000 ms (its cap is 10 s, not 30 s; doubling capped at
30 s would give 16000 ms), and the hook-level first delay is 3000 ms
(base 3 s, not 1 s). -/
theorem backoff_delays_differ_from_claim :
    pageReconnectDelay 4 = 10000 ∧ specClaimedDelay 4 = 16000 ∧
    pageReconnectDelay 4 ≠ specClaimedDelay 4 ∧
    wsReconnectDelay 1 = 3000 ∧ (3000 : ℚ) ≠ 1000 := by
  refine ⟨by decide, by decide, by decide, ?_, by norm_num⟩
  rw [wsReconnectDelay]
  norm_num [min_def]

theorem wsAttemptsAfter_eq (n : ℕ) : ∀ k : ℕ,
    wsAttemptsAfter ⟨k, false⟩ n = min n (5 - k) := by
  induction n with
  | zero => intro k; simp [wsAttemptsAfter]
  | succ n ih =>
    intro k
    rw [wsAttemptsAfter]
    by_cases hk : k < 5
    · have hstep : wsHandleClose ⟨k, false⟩ = (⟨k + 1, false⟩, true) := by
        simp [wsHandleClose, hk]
      rw [hstep]
      show (if true = true then 1 else 0) + wsAttemptsAfter ⟨k + 1, false⟩ n
        = min (n + 1) (5 - k)
      rw [if_pos rfl, ih (k + 1)]
      omega
    · have hstep : wsHandleClose ⟨k, false⟩ = (⟨k, false⟩, false) := by
        simp [wsHandleClose, hk]
      rw [hstep]
      show (if false = true then 1 else 0) + wsAttemptsAfter ⟨k, false⟩ n
        = min (n + 1) (5 - k)
      rw [if_neg (by simp), ih k]
      omega

/-- C4 amended: both reconnection mechanisms stop after 5 attempts (a
run of any number of non-manual closes schedules min(n, 5) attempts, so
never a 6th), and once the page-level recovery counter has reached 5 the
next disconnect stops the recording and clears the recovery state
(terminal).  The page-level delays start at 1000 ms, double, are capped
at 10000 ms (not 30 s) and strictly increase over the five attempts; the
hook-level delays start at 3000 ms, grow by factor 1.5 and are capped at
30000 ms, also strictly increasing over the five attempts. -/
theorem reconnect_budget_and_backoff (n : ℕ) (s : AppState)
    (hn5 : n ≥ 5)
    (hsf : s.isSendingFile = false)
    (hrec : s.isRecording = true)
    (hwas : s.wasRecordingBeforeDisconnect = true)
    (hatt : 5 ≤ s.recoveryAttempts) :
    wsAttemptsAfter ⟨0, false⟩ n = 5 ∧
    (onDisconnect s).isRecording = false ∧
    (onDisconnect s).isRecovering = false ∧
    (onDisconnect s).wasRecordingBeforeDisconnect = false ∧
    pageReconnectDelay 0 = 1000 ∧
    (∀ m : ℕ, m < 4 → pageReconnectDelay m < pageReconnectDelay (m + 1)) ∧
    (∀ m : ℕ, pageReconnectDelay m ≤ 10000) ∧
    (∀ k : ℕ, 1 ≤ k → k < 5 → wsReconnectDelay k < wsReconnectDelay (k + 1)) ∧
    (∀ k : ℕ, wsReconnectDelay k ≤ 30000) := by
  have hterm : (onDisconnect s).isRecording = false ∧
      (onDisconnect s).isRecovering = false ∧
      (onDisconnect s).wasRecordingBeforeDisconnect = false := by
    rw [onDisconnect]
    simp [hsf, hrec, hwas, Nat.not_lt.mpr hatt]
  refine ⟨?_, hterm.1, hterm.2.1, hterm.2.2, by decide, by decide,
    fun m => min_le_right _ _, ?_, fun k => min_le_right _ _⟩
  · rw [wsAttemptsAfter_eq n 0]
    omega
  · intro k hk1 hk5
    interval_cases k <;> rw [wsReconnectDelay, wsReconnectDelay] <;> norm_num [min_def]

/-- Witness for C4 amended: a run of 7 closes schedules exactly 5
attempts, and a disconnect at 5 accumulated recovery attempts stops the
recording. -/
theorem reconnect_budget_and_backoff_witness :
    let s := { initialState with
      isRecording := true,
      wasRecordingBeforeDisconnect := true,
      recoveryAttempts := 5 }
    wsAttemptsAfter ⟨0, false⟩ 7 = 5 ∧
    (onDisconnect s).isRecording = false ∧
    (onDisconnect s).isRecovering = false ∧
    (onDisconnect s).wasRecordingBeforeDisconnect = false ∧
    pageReconnectDelay 0 = 1000 ∧
    (∀ m : ℕ, m < 4 → pageReconnectDelay m < pageReconnectDelay (m + 1)) ∧
    (∀ m : ℕ, pageReconnectDelay m ≤ 10000) ∧
    (∀ k : ℕ, 1 ≤ k → k < 5 → wsReconnectDelay k < wsReconnectDelay (k + 1)) ∧
    (∀ k : ℕ, wsReconnectDelay k ≤ 30000) :=
  reconnect_budget_and_backoff 7 _ (by omega) rfl rfl rfl (by decide)

end FanoSTT
